import Mathlib

/-!
Shallow embedding of the Airflow UI deadline-table and chart-overlay code:
* `src/airflow-core/src/airflow/ui/src/pages/Run/Deadlines.tsx`
  (the `sortDeadlines` comparator-based sort, the `handleSort` view-state
  transition, the missed-only filter, and the loading/empty render guards);
* the duration-chart failed-icon plugin (`createFailedIconPlugin`, whose
  `afterDatasetsDraw` hook emits canvas drawing commands);
* the grid `Bar` component's guarded bar-height computation.

Conventions of the embedding:
* JavaScript numbers that can be `NaN` are modelled as `Option Int` with
  `none` for `NaN`; the ECMAScript sort turns a `NaN` comparator result
  into `+0` (`SortCompare`), which `sortCompare` reproduces with `getD 0`.
* `Array.prototype.sort` is stable (ES2019); it is modelled as a stable
  insertion sort driven by the numeric comparator.
* Canvas drawing is modelled as a trace of emitted commands, and the
  drawing context as a record of the properties the plugin touches plus
  the save/restore stack.
-/

namespace Airflow

/-- One record of the deadlines endpoint (`DeadlineResponse`): only the
fields the `Deadlines` component reads. `alert_name` and
`alert_description` are nullable display strings; the two timestamps are
ISO-8601 strings; `missed` is a boolean. -/
structure DeadlineResponse where
  id : Nat
  alert_name : Option String
  alert_description : Option String
  deadline_time : String
  created_at : String
  missed : Bool
deriving DecidableEq

/-- The sort fields of the table, as in
`type SortField = "alert_name" | "created_at" | "deadline_time" | "missed"`. -/
inductive SortField where
  | alert_name
  | created_at
  | deadline_time
  | missed
deriving DecidableEq

/-- The direction type, `type SortDir = "asc" | "desc"`. -/
inductive SortDir where
  | asc
  | desc
deriving DecidableEq

/-- Digit string to number, most significant first. -/
def digitsToNat (cs : List Char) : Nat :=
  cs.foldl (fun a c => a * 10 + (c.toNat - 48)) 0

/-- Model of `new Date(s).getTime()` on the timestamp strings of this API:
parses a strict ISO-8601 UTC timestamp `YYYY-MM-DDTHH:MM:SSZ` with
in-range components to a value that is strictly monotone in the instant it
denotes (the comparator below only consumes the sign of differences, so an
order-preserving encoding is faithful); any other string yields `none`,
the model of an invalid date whose `getTime()` is `NaN`. -/
def parseTimestamp (s : String) : Option Nat :=
  match s.toList with
  | [y1, y2, y3, y4, sep1, m1, m2, sep2, d1, d2, sepT,
     h1, h2, c1, n1, n2, c2, s1, s2, z] =>
    if sep1 = '-' ∧ sep2 = '-' ∧ sepT = 'T' ∧ c1 = ':' ∧ c2 = ':' ∧ z = 'Z' ∧
        ([y1, y2, y3, y4, m1, m2, d1, d2, h1, h2, n1, n2, s1, s2].all Char.isDigit) then
      let y := digitsToNat [y1, y2, y3, y4]
      let mo := digitsToNat [m1, m2]
      let d := digitsToNat [d1, d2]
      let h := digitsToNat [h1, h2]
      let mi := digitsToNat [n1, n2]
      let se := digitsToNat [s1, s2]
      if 1 ≤ mo ∧ mo ≤ 12 ∧ 1 ≤ d ∧ d ≤ 31 ∧ h ≤ 23 ∧ mi ≤ 59 ∧ se ≤ 59 then
        some (((((y * 100 + mo) * 100 + d) * 100 + h) * 100 + mi) * 100 + se)
      else
        none
    else
      none
  | _ => none

/-- Model of `Number(b)` on a boolean: `true ↦ 1`, `false ↦ 0`. -/
def numberOfBool (b : Bool) : Int :=
  if b then 1 else 0

/-- Model of `String.prototype.localeCompare` restricted to what the sort
consumes: a negative, zero or positive number according to the order of
the two strings (collation is modelled as the code-point order). -/
def localeCompare (a b : String) : Int :=
  if a < b then -1 else if b < a then 1 else 0

/-- The comparator body of `sortDeadlines` before the direction is
applied: `none` models a `NaN` result, which arises exactly when a
timestamp field fails to parse (`new Date(...).getTime()` is `NaN` and
`NaN - t`, `t - NaN` are `NaN`). `missed` compares `Number(left.missed) -
Number(right.missed)`; `alert_name` compares the names with missing names
replaced by the empty string. -/
def rawComparison (field : SortField) (left right : DeadlineResponse) : Option Int :=
  match field with
  | .deadline_time =>
    match parseTimestamp left.deadline_time, parseTimestamp right.deadline_time with
    | some a, some b => some ((a : Int) - (b : Int))
    | _, _ => none
  | .created_at =>
    match parseTimestamp left.created_at, parseTimestamp right.created_at with
    | some a, some b => some ((a : Int) - (b : Int))
    | _, _ => none
  | .missed => some (numberOfBool left.missed - numberOfBool right.missed)
  | .alert_name =>
    some (localeCompare (left.alert_name.getD "") (right.alert_name.getD ""))

/-- The full comparator passed to `sort`: `dir === "desc" ? -comparison :
comparison` (negating `NaN` keeps `NaN`), then the ECMAScript
`SortCompare` step that treats a `NaN` comparator result as `+0`. -/
def sortCompare (field : SortField) (dir : SortDir) (left right : DeadlineResponse) : Int :=
  (Option.map (fun c => if dir = .desc then -c else c) (rawComparison field left right)).getD 0

/-- Insert into an already-sorted list, keeping the inserted element
before every element it does not compare strictly greater than; since the
inserted element precedes the list's elements in the original order, this
is the placement of a stable sort. -/
def sortInsert (cmp : α → α → Int) (a : α) : List α → List α
  | [] => [a]
  | b :: l => if cmp a b ≤ 0 then a :: b :: l else b :: sortInsert cmp a l

/-- Stable sort by a numeric comparator: the model of
`Array.prototype.sort(comparator)`, which ES2019 requires to be stable. -/
def stableSort (cmp : α → α → Int) : List α → List α
  | [] => []
  | a :: l => sortInsert cmp a (stableSort cmp l)

/-- The function `sortDeadlines`: copies the list and sorts it by the comparator for
the given field and direction. -/
def sortDeadlines (deadlines : List DeadlineResponse) (field : SortField) (dir : SortDir) :
    List DeadlineResponse :=
  stableSort (sortCompare field dir) deadlines

/-- The local view state of the `Deadlines` component: the three `useState`
hooks `sortField`, `sortDir` and `showMissedOnly`. -/
structure ViewState where
  sortField : SortField
  sortDir : SortDir
  showMissedOnly : Bool
deriving DecidableEq

/-- The initial view state: `useState<SortField>("deadline_time")`,
`useState<SortDir>("asc")`, `useState(false)`. -/
def initialViewState : ViewState :=
  { sortField := .deadline_time, sortDir := .asc, showMissedOnly := false }

/-- The click handler `handleSort(field)`: clicking the active field toggles the direction,
clicking another field selects it and resets the direction to `asc`. -/
def handleSort (field : SortField) (st : ViewState) : ViewState :=
  if st.sortField = field then
    { st with sortDir := if st.sortDir = .asc then .desc else .asc }
  else
    { st with sortField := field, sortDir := .asc }

/-- The checkbox handler `setShowMissedOnly(event.target.checked)`. -/
def setShowMissedOnly (checked : Bool) (st : ViewState) : ViewState :=
  { st with showMissedOnly := checked }

/-- The filter step `showMissedOnly ? deadlines.filter((deadline) =>
deadline.missed) : deadlines`. -/
def filteredDeadlines (showMissedOnly : Bool) (deadlines : List DeadlineResponse) :
    List DeadlineResponse :=
  if showMissedOnly then deadlines.filter (fun deadline => deadline.missed) else deadlines

/-- The arguments of the fetch hook
`useDeadlinesServiceGetDagRunDeadlines({ dagId, runId })`: they are built
from the route parameters only, so view-state changes cannot change the
query. -/
def fetchParams (dagId runId : String) (_st : ViewState) : String × String :=
  (dagId, runId)

/-- What the component returns: the loading skeleton, the "no deadlines"
message, or the table with its ordered rows. -/
inductive DeadlinesView where
  | skeleton
  | noDeadlines
  | table (rows : List DeadlineResponse)
deriving DecidableEq

/-- The render path of `Deadlines`: the skeleton while `isLoading`; the
"no deadlines" message when the data is `undefined` or empty (checked
before filtering and sorting run); otherwise the table of the filtered,
sorted rows. -/
def renderDeadlines (isLoading : Bool) (deadlines : Option (List DeadlineResponse))
    (st : ViewState) : DeadlinesView :=
  if isLoading then
    .skeleton
  else
    match deadlines with
    | none => .noDeadlines
    | some ds =>
      if ds.length = 0 then
        .noDeadlines
      else
        .table (sortDeadlines (filteredDeadlines st.showMissedOnly ds) st.sortField st.sortDir)

/-! ### The duration-chart failed-icon plugin -/

/-- Constant `ICON_SIZE = 14`. -/
def ICON_SIZE : ℚ := 14

/-- Constant `ICON_OFFSET = 4`. -/
def ICON_OFFSET : ℚ := 4

/-- One canvas drawing command, as the plugin emits them. Coordinates and
sizes are exact rationals (every claim-relevant quantity is an integer, so
the float arithmetic of the source is exact there); `setFont` records the
numeric pixel size interpolated into the font string. -/
inductive CanvasCmd where
  | save
  | beginPath
  | moveTo (x y : ℚ)
  | lineTo (x y : ℚ)
  | closePath
  | setFillStyle (style : String)
  | fill
  | setStrokeStyle (style : String)
  | setLineWidth (w : ℚ)
  | stroke
  | setFont (size : ℚ)
  | setTextAlign (align : String)
  | setTextBaseline (baseline : String)
  | fillText (text : String) (x y : ℚ)
  | restore
deriving DecidableEq

/-- The chart handed to `afterDatasetsDraw`, reduced to what the hook
reads: `chart.getDatasetMeta(1).data`, the rendered elements of the
second ("duration") dataset, each with its on-canvas `(x, y)` position as
returned by `getProps(["x", "y"], true)`. -/
structure Chart where
  meta1 : List (ℚ × ℚ)

/-- The command trace of one glyph: the body of the `forEach` after the
element lookup succeeded at position `(x, y)`. -/
def drawFailedIcon (x y : ℚ) (failedIconColor : String) : List CanvasCmd :=
  let iconX := x
  let iconY := y - ICON_OFFSET - ICON_SIZE
  let half := ICON_SIZE / 2
  [ .save,
    .beginPath,
    .moveTo iconX (iconY + ICON_SIZE),
    .lineTo (iconX - half) iconY,
    .lineTo (iconX + half) iconY,
    .closePath,
    .setFillStyle failedIconColor,
    .fill,
    .setStrokeStyle failedIconColor,
    .setLineWidth 1,
    .stroke,
    .setFillStyle "white",
    .setFont (ICON_SIZE * (6 / 10)),
    .setTextAlign "center",
    .setTextBaseline "middle",
    .fillText "!" iconX (iconY + ICON_SIZE * (55 / 100)),
    .restore ]

/-- The hook `afterDatasetsDraw`: returns the trace of drawing commands the hook
emits. Early return on an empty `failedIndices` or an empty
`meta.data`; inside the loop, `meta.data[index]` is `undefined` out of
range and such an index is skipped (`if (!element) return`). -/
def afterDatasetsDraw (failedIndices : List Nat) (failedIconColor : String)
    (chart : Chart) : List CanvasCmd :=
  if failedIndices.length = 0 then
    []
  else if chart.meta1.length = 0 then
    []
  else
    failedIndices.flatMap fun index =>
      match chart.meta1.get? index with
      | none => []
      | some (x, y) => drawFailedIcon x y failedIconColor

/-- The drawing-context properties the plugin touches. -/
structure CtxProps where
  fillStyle : String
  strokeStyle : String
  lineWidth : ℚ
  font : ℚ
  textAlign : String
  textBaseline : String
deriving DecidableEq

/-- The drawing context: its current properties and the save/restore
stack (`ctx.restore()` on an empty stack is a no-op). -/
structure CtxState where
  props : CtxProps
  saved : List CtxProps
deriving DecidableEq

/-- Effect of one command on the drawing context; path and paint commands
leave the tracked context state unchanged. -/
def execCmd (st : CtxState) : CanvasCmd → CtxState
  | .save => { st with saved := st.props :: st.saved }
  | .restore =>
    match st.saved with
    | [] => st
    | p :: rest => { props := p, saved := rest }
  | .setFillStyle s => { st with props := { st.props with fillStyle := s } }
  | .setStrokeStyle s => { st with props := { st.props with strokeStyle := s } }
  | .setLineWidth w => { st with props := { st.props with lineWidth := w } }
  | .setFont f => { st with props := { st.props with font := f } }
  | .setTextAlign a => { st with props := { st.props with textAlign := a } }
  | .setTextBaseline b => { st with props := { st.props with textBaseline := b } }
  | .beginPath => st
  | .moveTo _ _ => st
  | .lineTo _ _ => st
  | .closePath => st
  | .fill => st
  | .stroke => st
  | .fillText _ _ _ => st

/-- Run a command trace on the drawing context. -/
def execCmds (st : CtxState) (cmds : List CanvasCmd) : CtxState :=
  cmds.foldl execCmd st

/-- The vertices of the path a trace builds: the coordinates of its
`moveTo` and `lineTo` commands, in order. -/
def pathVertices (cmds : List CanvasCmd) : List (ℚ × ℚ) :=
  cmds.filterMap fun c =>
    match c with
    | .moveTo x y => some (x, y)
    | .lineTo x y => some (x, y)
    | _ => none

/-! ### The grid `Bar` component -/

/-- Constant `BAR_HEIGHT = 100`. -/
def BAR_HEIGHT : ℚ := 100

/-- One grid run (`GridRunsResponse`), reduced to the field the bar-height
computation reads. -/
structure GridRunsResponse where
  duration : ℚ

/-- The guarded height `const barHeightPx = max > 0 ? (run.duration / max) *
BAR_HEIGHT : 0;`. -/
def barHeightPx (run : GridRunsResponse) (max : ℚ) : ℚ :=
  if max > 0 then run.duration / max * BAR_HEIGHT else 0

/-! ### Lemmas about the stable sort -/

theorem sublist_sortInsert (cmp : α → α → Int) (a : α) (s : List α) :
    s.Sublist (sortInsert cmp a s) := by
  induction s with
  | nil => simp [sortInsert]
  | cons b t ih =>
    rw [sortInsert]
    split
    · exact (List.Sublist.refl _).cons _
    · exact ih.cons₂ _

theorem mem_sortInsert_of_mem (cmp : α → α → Int) (a v : α) (s : List α)
    (hv : v ∈ s) : v ∈ sortInsert cmp a s :=
  (sublist_sortInsert cmp a s).mem hv

theorem sortInsert_keeps_order (cmp : α → α → Int) (a : α) (s : List α)
    (u v : α) (h : [u, v].Sublist s) : [u, v].Sublist (sortInsert cmp a s) := by
  induction s with
  | nil => simp at h
  | cons b t ih =>
    rw [sortInsert]
    split
    · exact h.cons _
    · cases h with
      | cons _ h1 => exact (ih h1).cons _
      | cons₂ _ h1 => exact (h1.trans (sublist_sortInsert cmp a t)).cons₂ _

theorem sortInsert_before_of_le (cmp : α → α → Int) (a : α) (s : List α)
    (v : α) (hv : v ∈ s) (hle : cmp a v ≤ 0) : [a, v].Sublist (sortInsert cmp a s) := by
  induction s with
  | nil => simp at hv
  | cons b t ih =>
    rw [sortInsert]
    split
    · exact (List.singleton_sublist.mpr hv).cons₂ _
    · rename_i hgt
      rcases List.mem_cons.mp hv with hb | ht

      · exact absurd (hb ▸ hle) hgt
      · exact (ih ht).cons _

/-- Inserting yields a permutation of consing the element. -/
theorem sortInsert_perm (cmp : α → α → Int) (a : α) (s : List α) :
    (sortInsert cmp a s).Perm (a :: s) := by
  induction s with
  | nil => simp [sortInsert]
  | cons b t ih =>
    rw [sortInsert]
    split
    · exact List.Perm.refl _
    · exact (ih.cons b).trans (List.Perm.swap a b t)

/-- The modelled sort permutes its input. -/
theorem stableSort_perm (cmp : α → α → Int) (l : List α) :
    (stableSort cmp l).Perm l := by
  induction l with
  | nil => exact List.Perm.refl _
  | cons b t ih => exact (sortInsert_perm cmp b _).trans (ih.cons b)

/-- The modelled `Array.prototype.sort` is stable: two elements the
comparator regards as equal (or already correctly ordered) keep their
relative order. -/
theorem stableSort_keeps_order (cmp : α → α → Int) (l : List α) (u v : α)
    (h : [u, v].Sublist l) (hle : cmp u v ≤ 0) : [u, v].Sublist (stableSort cmp l) := by
  induction l with
  | nil => simp at h
  | cons b t ih =>
    rw [stableSort]
    cases h with
    | cons _ h1 => exact sortInsert_keeps_order cmp b _ u v (ih h1)
    | cons₂ _ h1 =>
      exact sortInsert_before_of_le cmp u _ v
        (((stableSort_perm cmp t).mem_iff).mpr (List.singleton_sublist.mp h1)) hle

/-! ### Lemmas about the drawing trace -/

theorem execCmds_append (st : CtxState) (l1 l2 : List CanvasCmd) :
    execCmds st (l1 ++ l2) = execCmds (execCmds st l1) l2 := by
  simp [execCmds, List.foldl_append]

/-- One glyph leaves the drawing context exactly as it found it: the body
opens with a save and ends with a restore, and touches no context state
outside that bracket. -/
theorem execCmds_drawFailedIcon (x y : ℚ) (color : String) (st : CtxState) :
    execCmds st (drawFailedIcon x y color) = st :=
  rfl

/-- The two early returns of `afterDatasetsDraw` are special cases of the
per-index skip: the trace is always the concatenation of the glyphs of
the indices that resolve to an element. -/
theorem afterDatasetsDraw_eq_flatMap (failedIndices : List Nat) (color : String)
    (chart : Chart) :
    afterDatasetsDraw failedIndices color chart =
      failedIndices.flatMap (fun index =>
        match chart.meta1.get? index with
        | none => []
        | some (x, y) => drawFailedIcon x y color) := by
  rw [afterDatasetsDraw]
  split
  · rename_i h
    rw [List.length_eq_zero.mp h]
    simp
  · split
    · rename_i h
      have hm : chart.meta1 = [] := List.length_eq_zero.mp h
      induction failedIndices with
      | nil => simp
      | cons a t ih => simp [List.flatMap_cons, hm, ← ih]
    · rfl

theorem sublist_flatMap_of_mem (f : α → List β) (l : List α) (a : α) (h : a ∈ l) :
    (f a).Sublist (l.flatMap f) := by
  induction l with
  | nil => simp at h
  | cons b t ih =>
    rw [List.flatMap_cons]
    rcases List.mem_cons.mp h with hb | ht
    · exact hb ▸ List.sublist_append_left _ _
    · exact (ih ht).trans (List.sublist_append_right _ _)

theorem pair_sublist (u v : α) (l1 l2 l3 : List α) :
    [u, v].Sublist (l1 ++ u :: (l2 ++ v :: l3)) :=
  (List.Sublist.cons₂ u (List.singleton_sublist.mpr
    (List.mem_append_right l2 (List.mem_cons_self v l3)))).trans
    (List.sublist_append_right l1 _)

theorem triple_sublist (u v w : α) (l1 l2 l3 l4 : List α) :
    [u, v, w].Sublist (l1 ++ u :: (l2 ++ v :: (l3 ++ w :: l4))) :=
  (List.Sublist.cons₂ u (pair_sublist v w l2 l3 l4)).trans
    (List.sublist_append_right l1 _)

/-- Each drawn glyph opens exactly one path. -/
theorem count_beginPath_drawFailedIcon (x y : ℚ) (color : String) :
    (drawFailedIcon x y color).count CanvasCmd.beginPath = 1 :=
  rfl

theorem count_beginPath_afterDatasetsDraw (failedIndices : List Nat) (color : String)
    (chart : Chart) :
    (afterDatasetsDraw failedIndices color chart).count CanvasCmd.beginPath =
      (failedIndices.filter (fun i => decide (i < chart.meta1.length))).length := by
  rw [afterDatasetsDraw_eq_flatMap]
  induction failedIndices with
  | nil => simp
  | cons a t ih =>
    rw [List.flatMap_cons, List.count_append, ih, List.filter_cons]
    cases hm : chart.meta1.get? a with
    | none =>
      have hnl : ¬ a < chart.meta1.length := by
        simpa using List.get?_eq_none.mp hm
      simp [hnl]
    | some p =>
      have hl : a < chart.meta1.length := by
        by_contra hlt
        rw [List.get?_eq_none.mpr (Nat.le_of_not_lt hlt)] at hm
        exact Option.noConfusion hm
      cases p with
      | mk x y =>
        simp [hl, count_beginPath_drawFailedIcon]
        omega

/-! ### Concrete records used by the claims' concrete instances -/

deriving instance Fintype for SortField

deriving instance Fintype for SortDir

deriving instance Fintype for ViewState

/-- The end-to-end example's first record: `{id:1, missed:true,
deadlineTime:"2024-01-01T00:00:00Z"}`. -/
def missedEarly : DeadlineResponse :=
  ⟨1, some "a", none, "2024-01-01T00:00:00Z", "2024-01-01T00:00:00Z", true⟩

/-- The end-to-end example's second record: `{id:2, missed:false,
deadlineTime:"2024-01-02T00:00:00Z"}`. -/
def onTrackLate : DeadlineResponse :=
  ⟨2, some "b", none, "2024-01-02T00:00:00Z", "2024-01-02T00:00:00Z", false⟩

/-- A record whose timestamp fields do not parse as dates. -/
def unparsableRecord : DeadlineResponse :=
  ⟨3, some "c", none, "not-a-date", "not-a-date", false⟩

/-- Two records with the same alert name (equal sort keys under
`alert_name`) and a third with a smaller name, for the stability claim. -/
def tieBreakFirst : DeadlineResponse :=
  ⟨10, some "same", none, "2024-03-01T00:00:00Z", "2024-03-01T00:00:00Z", false⟩

/-- Second record with the alert name of `tieBreakFirst`. -/
def tieBreakSecond : DeadlineResponse :=
  ⟨11, some "same", none, "2024-03-02T00:00:00Z", "2024-03-02T00:00:00Z", true⟩

/-- A record whose alert name sorts before "same". -/
def tieBreakOther : DeadlineResponse :=
  ⟨12, some "aaa", none, "2024-03-03T00:00:00Z", "2024-03-03T00:00:00Z", false⟩

/-- Modelled from the claim's words, for comparison with the code's
glyph: the vertices of an upward-pointing triangle 14 units wide and 14
units tall, horizontally centered on `x`, whose base edge lies at height
`y - 4` (canvas `y` grows downward, so its two base corners are at
`y - 4` and its apex 14 units higher, at `y - 18`). -/
def claimedUpwardTriangleVertices (x y : ℚ) : List (ℚ × ℚ) :=
  [(x - 7, y - 4), (x + 7, y - 4), (x, y - 18)]

/-! ### The claims -/

/-- C1, counterexample: the code does not order an unparsable-timestamp
record as if it had the earliest possible timestamp. With the parsable
record first, the ascending sort by `deadline_time` leaves the list
unchanged (the `NaN` comparison counts as equal and the stable sort keeps
the input order); were the unparsable record treated as earliest, it
would have moved to the front. -/
theorem claim_C1_counterexample :
    parseTimestamp unparsableRecord.deadline_time = none ∧
    sortDeadlines [onTrackLate, unparsableRecord] .deadline_time .asc
      = [onTrackLate, unparsableRecord] ∧
    sortDeadlines [onTrackLate, unparsableRecord] .deadline_time .asc
      ≠ [unparsableRecord, onTrackLate] := by
  decide

/-- C1, amended: sorting by `deadline_time` or `created_at` never throws,
and a comparison in which either record's timestamp is missing or
unparsable yields `NaN`, which the sort treats as `+0`: such records
compare equal to every record, in both directions, so a stable sort
keeps them in their original relative positions (they are not ordered as
if earliest). -/
theorem claim_C1_nan_compares_equal :
    ∀ (dir : SortDir) (l r : DeadlineResponse),
      ((parseTimestamp l.deadline_time = none ∨ parseTimestamp r.deadline_time = none) →
        sortCompare .deadline_time dir l r = 0) ∧
      ((parseTimestamp l.created_at = none ∨ parseTimestamp r.created_at = none) →
        sortCompare .created_at dir l r = 0) := by
  intro dir l r
  have key : ∀ a b : Option Nat, a = none ∨ b = none →
      (Option.map (fun c => if dir = .desc then -c else c)
        (match a, b with
         | some u, some v => some ((u : Int) - (v : Int))
         | _, _ => none)).getD 0 = 0 := by
    intro a b h
    rcases h with h | h <;> subst h
    · cases b <;> rfl
    · cases a <;> rfl
  exact ⟨fun h => key _ _ h, fun h => key _ _ h⟩

/-- C1, witness: a concrete unparsable/parsable pair compares as `0`. -/
theorem claim_C1_witness :
    parseTimestamp unparsableRecord.deadline_time = none ∧
    sortCompare .deadline_time .asc unparsableRecord onTrackLate = 0 :=
  ⟨by decide,
    (claim_C1_nan_compares_equal .asc unparsableRecord onTrackLate).1 (Or.inl (by decide))⟩

/-- C2, counterexample: at the rendered point `(100, 100)` of index 2 the
plugin draws its triangle with apex at `(100, 96)` (4 units above the
point) and horizontal base edge at height `82 = 100 - 18`; the vertex set
is not that of the claimed upward-pointing triangle whose base edge lies
at height `y - 4 = 96`. -/
theorem claim_C2_counterexample :
    afterDatasetsDraw [2] "#ff0000" ⟨[(10, 10), (20, 20), (100, 100)]⟩
      = drawFailedIcon 100 100 "#ff0000" ∧
    pathVertices (drawFailedIcon 100 100 "#ff0000") = [(100, 96), (93, 82), (107, 82)] ∧
    ¬ (pathVertices (drawFailedIcon 100 100 "#ff0000")).Perm
      (claimedUpwardTriangleVertices 100 100) := by
  have hv : pathVertices (drawFailedIcon 100 100 "#ff0000")
      = [(100, 96), (93, 82), (107, 82)] := by
    simp [drawFailedIcon, pathVertices, ICON_SIZE, ICON_OFFSET]
    norm_num
  refine ⟨rfl, hv, ?_⟩
  intro hp
  rw [hv] at hp
  have h96 : ((100 : ℚ), (96 : ℚ)) ∈ claimedUpwardTriangleVertices 100 100 :=
    hp.mem_iff.mp (List.mem_cons_self _ _)
  norm_num [claimedUpwardTriangleVertices] at h96

/-- C2, amended: for every data point at `(x, y)` whose index is in
`failedIndices` and has a rendered element, the hook draws a triangle of
fixed size, 14 units wide and 14 units tall, horizontally centered on
`x`, pointing downward toward the point: its apex at `(x, y - 4)` (4
units above the point) and its horizontal base edge at height `y - 18`;
it is filled and outlined in the given color. -/
theorem claim_C2_downward_triangle :
    ∀ (failedIndices : List Nat) (color : String) (chart : Chart) (i : Nat) (x y : ℚ),
      i ∈ failedIndices → chart.meta1.get? i = some (x, y) →
      (drawFailedIcon x y color).Sublist (afterDatasetsDraw failedIndices color chart) ∧
      pathVertices (drawFailedIcon x y color)
        = [(x, y - 4), (x - 7, y - 18), (x + 7, y - 18)] ∧
      [CanvasCmd.setFillStyle color, CanvasCmd.fill].Sublist (drawFailedIcon x y color) ∧
      [CanvasCmd.setStrokeStyle color, CanvasCmd.setLineWidth 1,
        CanvasCmd.stroke].Sublist (drawFailedIcon x y color) := by
  intro failedIndices color chart i x y hi hget
  refine ⟨?_, ?_, ?_, ?_⟩
  · rw [afterDatasetsDraw_eq_flatMap]
    have h := sublist_flatMap_of_mem
      (fun index =>
        match chart.meta1.get? index with
        | none => []
        | some (x, y) => drawFailedIcon x y color)
      failedIndices i hi
    simp only at h
    rw [hget] at h
    exact h
  · simp [drawFailedIcon, pathVertices, ICON_SIZE, ICON_OFFSET]
    norm_num
    ring
  · exact .cons _ (.cons _ (.cons _ (.cons _ (.cons _ (.cons _ (.cons₂ _
      (.cons₂ _ (List.nil_sublist _))))))))
  · exact .cons _ (.cons _ (.cons _ (.cons _ (.cons _ (.cons _ (.cons _ (.cons _
      (.cons₂ _ (.cons₂ _ (.cons₂ _ (List.nil_sublist _)))))))))))

/-- C2, witness: the amended theorem applied to a chart with three
rendered points and index 2 flagged. -/
theorem claim_C2_witness :
    2 ∈ [2] ∧
    (Chart.mk [(10, 10), (20, 20), (100, 100)]).meta1.get? 2 = some (100, 100) ∧
    pathVertices (drawFailedIcon 100 100 "#00ff00")
      = [(100, 100 - 4), (100 - 7, 100 - 18), (100 + 7, 100 - 18)] :=
  ⟨by decide, rfl,
    (claim_C2_downward_triangle [2] "#00ff00" ⟨[(10, 10), (20, 20), (100, 100)]⟩
      2 100 100 (by decide) rfl).2.1⟩

/-- C3: with `showMissedOnly = true` the filter keeps exactly the missed
records (a subsequence of the fetched list containing a record iff it is
a fetched record with `missed = true`, and the displayed, sorted rows
contain exactly those records); with `showMissedOnly = false` it keeps
every fetched record; and toggling the filter leaves the fetch hook's
arguments unchanged, so it cannot refetch. -/
theorem claim_C3_filter_exact :
    ∀ (ds : List DeadlineResponse) (d : DeadlineResponse) (st : ViewState) (b : Bool)
      (dagId runId : String),
      (filteredDeadlines true ds).Sublist ds ∧
      (d ∈ filteredDeadlines true ds ↔ d ∈ ds ∧ d.missed = true) ∧
      (d ∈ sortDeadlines (filteredDeadlines true ds) st.sortField st.sortDir ↔
        d ∈ ds ∧ d.missed = true) ∧
      filteredDeadlines false ds = ds ∧
      (d ∈ sortDeadlines (filteredDeadlines false ds) st.sortField st.sortDir ↔ d ∈ ds) ∧
      fetchParams dagId runId (setShowMissedOnly b st) = fetchParams dagId runId st := by
  intro ds d st b dagId runId
  have hperm : ∀ (l : List DeadlineResponse),
      (sortDeadlines l st.sortField st.sortDir).Perm l :=
    fun l => stableSort_perm _ l
  refine ⟨?_, ?_, ?_, rfl, ?_, rfl⟩
  · simp [filteredDeadlines]
  · simp [filteredDeadlines]
  · rw [(hperm _).mem_iff]
    simp [filteredDeadlines]
  · rw [(hperm _).mem_iff]
    simp [filteredDeadlines]

/-- C3, witness: the missed record of the example pair is kept by the
filter and appears among the displayed rows. -/
theorem claim_C3_witness :
    missedEarly ∈ filteredDeadlines true [missedEarly, onTrackLate] ∧
    missedEarly ∈ sortDeadlines (filteredDeadlines true [missedEarly, onTrackLate])
      initialViewState.sortField initialViewState.sortDir :=
  ⟨(claim_C3_filter_exact [missedEarly, onTrackLate] missedEarly initialViewState
      false "dag" "run").2.1.mpr ⟨by decide, by decide⟩,
    (claim_C3_filter_exact [missedEarly, onTrackLate] missedEarly initialViewState
      false "dag" "run").2.2.1.mpr ⟨by decide, by decide⟩⟩

/-- C4: the sort is stable for every field and direction: two records the
comparator regards as equal that occur in a given order in the input
occur in the same order in the sorted output. -/
theorem claim_C4_sort_stable (l : List DeadlineResponse) (field : SortField)
    (dir : SortDir) (u v : DeadlineResponse) (h : [u, v].Sublist l)
    (heq : sortCompare field dir u v = 0) :
    [u, v].Sublist (sortDeadlines l field dir) :=
  stableSort_keeps_order (sortCompare field dir) l u v h (le_of_eq heq)

/-- C4, witness: two records with the same alert name keep their relative
order when a three-record list is sorted by `alert_name`. -/
theorem claim_C4_witness :
    [tieBreakFirst, tieBreakSecond].Sublist [tieBreakOther, tieBreakFirst, tieBreakSecond] ∧
    sortCompare .alert_name .asc tieBreakFirst tieBreakSecond = 0 ∧
    [tieBreakFirst, tieBreakSecond].Sublist
      (sortDeadlines [tieBreakOther, tieBreakFirst, tieBreakSecond] .alert_name .asc) := by
  have hcmp : sortCompare .alert_name .asc tieBreakFirst tieBreakSecond = 0 := by
    simp [sortCompare, rawComparison, localeCompare, tieBreakFirst, tieBreakSecond]
  have hsub : [tieBreakFirst, tieBreakSecond].Sublist
      [tieBreakOther, tieBreakFirst, tieBreakSecond] := by decide
  exact ⟨hsub, hcmp,
    claim_C4_sort_stable [tieBreakOther, tieBreakFirst, tieBreakSecond] .alert_name .asc
      tieBreakFirst tieBreakSecond hsub hcmp⟩

/-- C5: the sort state starts at `(deadline_time, asc)`; clicking the
active field flips only the direction (so a second click on the same
field restores the previous direction, in particular two clicks from
ascending return to ascending), while clicking a different field selects
it and resets the direction to ascending whatever the previous direction
was. -/
theorem claim_C5_sort_toggle :
    initialViewState.sortField = SortField.deadline_time ∧
    initialViewState.sortDir = SortDir.asc ∧
    (∀ (st : ViewState) (f : SortField),
      (st.sortField = f →
        (handleSort f st).sortField = st.sortField ∧
        (handleSort f st).showMissedOnly = st.showMissedOnly ∧
        (st.sortDir = .asc → (handleSort f st).sortDir = .desc) ∧
        (st.sortDir = .desc → (handleSort f st).sortDir = .asc) ∧
        handleSort f (handleSort f st) = st) ∧
      (st.sortField ≠ f →
        handleSort f st = { st with sortField := f, sortDir := .asc })) := by
  refine ⟨rfl, rfl, ?_⟩
  decide

/-- C5, witness: one click on a different field (`missed`) from the
initial state selects it with ascending direction. -/
theorem claim_C5_witness :
    handleSort SortField.missed initialViewState
      = { initialViewState with sortField := SortField.missed, sortDir := SortDir.asc } :=
  (claim_C5_sort_toggle.2.2 initialViewState SortField.missed).2 (by decide)

/-- C6: the hook draws exactly one glyph per flagged index that has a
rendered element in the second dataset, and silently draws nothing for
the missing cases: an empty `failedIndices`, a dataset with no rendered
elements, or indices entirely out of range each produce the empty trace,
and the number of opened glyph paths equals the number of in-range
flagged indices. -/
theorem claim_C6_silent_skip :
    ∀ (failedIndices : List Nat) (color : String) (chart : Chart),
      (failedIndices = [] → afterDatasetsDraw failedIndices color chart = []) ∧
      (chart.meta1 = [] → afterDatasetsDraw failedIndices color chart = []) ∧
      ((∀ i ∈ failedIndices, chart.meta1.length ≤ i) →
        afterDatasetsDraw failedIndices color chart = []) ∧
      (afterDatasetsDraw failedIndices color chart).count CanvasCmd.beginPath =
        (failedIndices.filter (fun i => decide (i < chart.meta1.length))).length := by
  intro failedIndices color chart
  refine ⟨?_, ?_, ?_, count_beginPath_afterDatasetsDraw failedIndices color chart⟩
  · intro h
    subst h
    rfl
  · intro h
    rw [afterDatasetsDraw]
    split
    · rfl
    · rw [if_pos (by simp [h])]
  · intro h
    rw [afterDatasetsDraw_eq_flatMap]
    induction failedIndices with
    | nil => rfl
    | cons a t ih =>
      rw [List.flatMap_cons, List.get?_eq_none.mpr (h a (List.mem_cons_self a t))]
      exact ih fun i hi => h i (List.mem_cons_of_mem a hi)

/-- C6, witness: `annotate([5], color)` on a chart with three rendered
points performs zero drawing calls. -/
theorem claim_C6_witness :
    afterDatasetsDraw [5] "#ff0000" ⟨[(1, 1), (2, 2), (3, 3)]⟩ = [] :=
  (claim_C6_silent_skip [5] "#ff0000" ⟨[(1, 1), (2, 2), (3, 3)]⟩).2.2.1 (by decide)

/-- C7: the hook mutates no chart state: every drawing-context property
it changes is bracketed by a save/restore per glyph, so running any
glyph's commands, and the whole emitted trace, leaves the drawing
context exactly as it was. -/
theorem claim_C7_context_restored :
    ∀ (failedIndices : List Nat) (color : String) (chart : Chart) (st : CtxState) (x y : ℚ),
      execCmds st (drawFailedIcon x y color) = st ∧
      execCmds st (afterDatasetsDraw failedIndices color chart) = st := by
  intro failedIndices color chart st x y
  refine ⟨rfl, ?_⟩
  rw [afterDatasetsDraw_eq_flatMap]
  induction failedIndices with
  | nil => rfl
  | cons a t ih =>
    have hglyph : execCmds st
        (match chart.meta1.get? a with
         | none => []
         | some (x, y) => drawFailedIcon x y color) = st := by
      cases chart.meta1.get? a with
      | none => rfl
      | some p => cases p with | mk x y => rfl
    rw [List.flatMap_cons, execCmds_append, hglyph]
    exact ih

/-- C8: sorting by `missed` coerces the boolean to 0/1 and compares
numerically; on the example records the default sort (`deadline_time`,
ascending) yields ids `[1, 2]`, and one click on the status header
(`handleSort "missed"` from the initial state) yields ids `[2, 1]`. -/
theorem claim_C8_missed_numeric_example :
    (∀ left right : DeadlineResponse,
      rawComparison .missed left right
        = some (numberOfBool left.missed - numberOfBool right.missed)) ∧
    (sortDeadlines [missedEarly, onTrackLate] initialViewState.sortField
      initialViewState.sortDir).map (fun d => d.id) = [1, 2] ∧
    (sortDeadlines [missedEarly, onTrackLate]
      (handleSort .missed initialViewState).sortField
      (handleSort .missed initialViewState).sortDir).map (fun d => d.id) = [2, 1] :=
  ⟨fun _ _ => rfl, by decide, by decide⟩

/-- C9: the grid `Bar` height is guarded against division by zero: with
`max > 0` it is `duration / max * 100` pixels, and with `max ≤ 0` it is
exactly `0`. -/
theorem claim_C9_bar_height_guard :
    ∀ (run : GridRunsResponse) (max : ℚ),
      (0 < max → barHeightPx run max = run.duration / max * 100) ∧
      (max ≤ 0 → barHeightPx run max = 0) := by
  intro run max
  constructor
  · intro h
    rw [barHeightPx, if_pos h]
    rfl
  · intro h
    rw [barHeightPx, if_neg (not_lt.mpr h)]

/-- C9, witness: a run of duration 50 with `max = 2` gets a bar of
`50 / 2 * 100` pixels. -/
theorem claim_C9_witness :
    barHeightPx ⟨50⟩ 2 = 50 / 2 * 100 :=
  (claim_C9_bar_height_guard ⟨50⟩ 2).1 (by norm_num)

/-- C10: with loading over and the data absent, the component renders the
same "no deadlines" view as for an empty list, for every view state
(so before, and independent of, the filter/sort path); and the table
branch is reached exactly for a nonempty fetched list. -/
theorem claim_C10_absent_data :
    ∀ (st st2 : ViewState) (ds : List DeadlineResponse),
      renderDeadlines false none st = DeadlinesView.noDeadlines ∧
      renderDeadlines false (some []) st = DeadlinesView.noDeadlines ∧
      renderDeadlines false none st = renderDeadlines false (some []) st2 ∧
      (renderDeadlines false (some ds) st = DeadlinesView.noDeadlines ↔ ds = []) := by
  intro st st2 ds
  refine ⟨rfl, rfl, rfl, ?_⟩
  cases ds with
  | nil => exact ⟨fun _ => rfl, fun _ => rfl⟩
  | cons d t => simp [renderDeadlines]

/-- C10, witness: absent data renders the "no deadlines" view in the
initial state. -/
theorem claim_C10_witness :
    renderDeadlines false none initialViewState = DeadlinesView.noDeadlines :=
  (claim_C10_absent_data initialViewState initialViewState []).1

end Airflow
